import Mathlib

/-!
Verification of the cost-import / snapshot-resolution core of the
`cielo_azure_billing` repository, shallowly embedded from
`src/cielo/azure/cost_analysis/{models,services,utils,views}.py`.

Modelling conventions:
* Dates are records of month/day/year naturals; `parse_date` embeds the
  code's `datetime.strptime(s, "%m/%d/%Y")` wrapper (three slash-separated
  digit groups, calendar-checked day, 4-digit-bounded year).
* Django rows are Lean structures; a table is a `List`; primary keys are
  `Nat`s handed out by a `nextId` counter on the database state.
* `Optional[str]` CSV cells are `Option String`; Python truthiness of such
  a cell (`None` and `""` are falsy) is the `truthy` function.
* Monetary columns receive either the Python literal `0` or the raw CSV
  string (which the store converts to a fixed-point decimal); the value
  passed is modelled symbolically by `DecimalValue`.  Nullable decimal
  columns hold `Option DecimalValue`.
* Fallible effects are explicit: the CSV stream is a list of events that
  are either a parsed row or a stream-level fatal exception, and
  `import_file` returns the final database state together with
  `Except String Nat` (re-raised exception, or the returned row count).
-/

namespace CieloAzureBilling

/-- Snapshot lifecycle status (`CostReportSnapshot.Status` in `models.py`). -/
inductive Status where
  | in_progress
  | complete
  | failed
deriving DecidableEq, Repr

/-- A calendar date (the code passes `datetime.date` values around). -/
structure Date where
  month : Nat
  day : Nat
  year : Nat
deriving DecidableEq, Repr

/-- Value handed to a decimal column by the importer: the Python literal
`0` (from `row.get(...) or 0`) or the raw CSV string that the store parses
as a fixed-point decimal. -/
inductive DecimalValue where
  | int0
  | ofString (s : String)
deriving DecidableEq, Repr

/-- Python truthiness of an optional CSV cell: `None` and `""` are falsy. -/
def truthy : Option String → Bool
  | none => false
  | some s => s ≠ ""

/-- `row.get(k) or 0` as passed to a decimal column. -/
def orZero (v : Option String) : DecimalValue :=
  match v with
  | none => DecimalValue.int0
  | some s => if s = "" then DecimalValue.int0 else DecimalValue.ofString s

/-- `row.get(k) or None`: the empty string collapses to `None`. -/
def orNone (v : Option String) : Option String :=
  match v with
  | none => none
  | some s => if s = "" then none else some s

/-- `BillingBlobSource` rows (`models.py`): a configured export feed. -/
structure BillingBlobSource where
  id : Nat
  name : String
  is_active : Bool
deriving DecidableEq, Repr

/-- `CostReportSnapshot` rows (`models.py`): one import run of one file. -/
structure CostReportSnapshot where
  id : Nat
  run_id : String
  report_date : Option Date
  file_name : String
  source : Option Nat
  status : Status
  created_at : Nat
deriving DecidableEq, Repr

/-- `Customer` rows, keyed by tenant id. -/
structure Customer where
  id : Nat
  tenant_id : Option String
  name : Option String
deriving DecidableEq, Repr

/-- `Subscription` rows, keyed by subscription id. -/
structure Subscription where
  id : Nat
  subscription_id : Option String
  name : Option String
  customer : Nat
deriving DecidableEq, Repr

/-- `Resource` rows, keyed by the full resource path. -/
structure Resource where
  id : Nat
  resource_id : Option String
  resource_name : Option String
  name : Option String
  resource_group : Option String
  location : Option String
deriving DecidableEq, Repr

/-- `Meter` rows, keyed by meter id. -/
structure Meter where
  id : Nat
  meter_id : Option String
  name : Option String
  category : Option String
  subcategory : Option String
  service_family : Option String
  unit : Option String
deriving DecidableEq, Repr

/-- `CostEntry` rows (`models.py`): one billed line item, owned by one
snapshot.  Nullable decimal columns are `Option DecimalValue`. -/
structure CostEntry where
  snapshot : Nat
  date : Date
  subscription : Nat
  resource : Nat
  meter : Nat
  cost_in_usd : DecimalValue
  cost_in_billing_currency : Option DecimalValue
  billing_currency : Option String
  quantity : DecimalValue
  unit_price : DecimalValue
  payg_price : Option DecimalValue
  pricing_model : Option String
  charge_type : Option String
  publisher_name : Option String
  cost_center : Option String
  tags : Option String
deriving DecidableEq, Repr

/-- One CSV record as produced by `csv.DictReader`: every `row.get(k)` the
importer performs, as an optional string. -/
structure RawRow where
  customerTenantId : Option String := none
  SubscriptionId : Option String := none
  subscriptionName : Option String := none
  ResourceId : Option String := none
  productOrderName : Option String := none
  resourceGroupName : Option String := none
  resourceLocation : Option String := none
  meterId : Option String := none
  meterName : Option String := none
  meterCategory : Option String := none
  meterSubCategory : Option String := none
  serviceFamily : Option String := none
  unitOfMeasure : Option String := none
  date : Option String := none
  costInUsd : Option String := none
  costInBillingCurrency : Option String := none
  billingCurrency : Option String := none
  quantity : Option String := none
  unitPrice : Option String := none
  PayGPrice : Option String := none
  pricingModel : Option String := none
  chargeType : Option String := none
  publisherName : Option String := none
  costCenter : Option String := none
  tags : Option String := none
deriving DecidableEq, Repr

/-- The relational store: one list per table plus the auto-increment pk
counter shared by freshly created rows. -/
structure Db where
  sources : List BillingBlobSource := []
  snapshots : List CostReportSnapshot := []
  customers : List Customer := []
  subscriptions : List Subscription := []
  resources : List Resource := []
  meters : List Meter := []
  entries : List CostEntry := []
  nextId : Nat := 1
deriving DecidableEq, Repr

/-- Python `str.split(sep)` over a character list (structural, so that
concrete runs reduce inside the kernel). -/
def splitOnChar (sep : Char) : List Char → List (List Char)
  | [] => [[]]
  | c :: rest =>
    match splitOnChar sep rest with
    | [] => if c = sep then [[], []] else [[c]]
    | g :: gs => if c = sep then [] :: g :: gs else (c :: g) :: gs

/-- Python `str.rstrip(sep)`: drop every trailing occurrence of `sep`. -/
def rstripChar (sep : Char) (cs : List Char) : List Char :=
  ((cs.reverse).dropWhile (fun c => c = sep)).reverse

/-- Python `str.strip()`: drop leading and trailing whitespace. -/
def stripChars (cs : List Char) : List Char :=
  (((cs.dropWhile Char.isWhitespace).reverse).dropWhile Char.isWhitespace).reverse

/-- Python `str.lower()` (ASCII range, which covers the data involved). -/
def lowerChars (cs : List Char) : List Char :=
  cs.map Char.toLower

/-- Digit-string to number, `none` on a non-digit. -/
def digitsToNatAux (acc : Nat) : List Char → Option Nat
  | [] => some acc
  | c :: rest =>
    if c.isDigit then digitsToNatAux (acc * 10 + (c.toNat - 48)) rest else none

/-- Digit-string to number, `none` when empty or containing a non-digit. -/
def digitsToNat : List Char → Option Nat
  | [] => none
  | c :: rest => digitsToNatAux 0 (c :: rest)

/-- Gregorian leap-year rule (used by `strptime` day validation). -/
def isLeapYear (y : Nat) : Bool :=
  (y % 4 == 0 && y % 100 != 0) || y % 400 == 0

/-- Number of days of month `m` in year `y`. -/
def daysInMonth (y m : Nat) : Nat :=
  if m = 2 then (if isLeapYear y then 29 else 28)
  else if m = 4 ∨ m = 6 ∨ m = 9 ∨ m = 11 then 30
  else 31

/-- `services.parse_date`: `strptime(s, "%m/%d/%Y")` wrapped so that a
falsy input and a `ValueError` both yield `None`.  `%m`/`%d` match one or
two digits, `%Y` one to four digits, and the day is calendar-checked. -/
def parse_date (date_str : Option String) : Option Date :=
  match date_str with
  | none => none
  | some s =>
    if s = "" then none
    else
      match splitOnChar '/' s.data with
      | [ms, ds, ys] =>
        match digitsToNat ms, digitsToNat ds, digitsToNat ys with
        | some m, some d, some y =>
          if ms.length ≤ 2 && ds.length ≤ 2 && ys.length ≤ 4 &&
              1 ≤ m && m ≤ 12 && 1 ≤ d && d ≤ daysInMonth y m &&
              1 ≤ y then
            some { month := m, day := d, year := y }
          else none
        | _, _, _ => none
      | _ => none

/-! ### Latest-snapshot resolver (`utils.py`) -/

/-- Left-to-right maximum accumulator used by `firstByMax`. -/
def pickMax (f : CostReportSnapshot → Nat) (acc : CostReportSnapshot) :
    List CostReportSnapshot → CostReportSnapshot
  | [] => acc
  | s :: rest => pickMax f (if f acc < f s then s else acc) rest

/-- `order_by(f desc).first()` of a result list: the element whose measure
`f` is greatest (the earliest such element on ties, matching a stable
descending sort). -/
def firstByMax (f : CostReportSnapshot → Nat) :
    List CostReportSnapshot → Option CostReportSnapshot
  | [] => none
  | s :: rest => some (pickMax f s rest)

/-- `BillingBlobSource.objects.filter(is_active=True)`. -/
def activeSources (db : Db) : List BillingBlobSource :=
  db.sources.filter (fun src => src.is_active)

/-- `utils.get_latest_snapshot_for_date`: if no `CostEntry` at all exists
for the date, return `None`; otherwise the complete snapshot joined to an
entry of that date with the most recent `created_at`. -/
def get_latest_snapshot_for_date (db : Db) (billing_date : Date) :
    Option CostReportSnapshot :=
  if db.entries.any (fun e => e.date == billing_date) then
    firstByMax (fun s => s.created_at)
      (db.snapshots.filter (fun s =>
        s.status == Status.complete &&
          db.entries.any (fun e => e.snapshot == s.id && e.date == billing_date)))
  else none

/-- The per-source candidate set of `utils.get_latest_snapshots_for_date`:
this source's complete snapshots whose `report_date` equals the target. -/
def snapshotsForSourceDate (db : Db) (srcId : Nat) (d : Date) :
    List CostReportSnapshot :=
  db.snapshots.filter (fun s =>
    s.source == some srcId && s.report_date == some d &&
      s.status == Status.complete)

/-- `utils.get_latest_snapshots_for_date`: per active source, the snapshot
of that source/report-date with the highest id (`order_by('-id').first()`);
sources with no candidate contribute nothing. -/
def get_latest_snapshots_for_date (db : Db) (target_date : Date) :
    List CostReportSnapshot :=
  (activeSources db).filterMap (fun src =>
    firstByMax (fun s => s.id) (snapshotsForSourceDate db src.id target_date))

/-- A source's complete snapshots regardless of date (the no-date branch of
`utils.get_latest_snapshots`). -/
def completeSnapshotsForSource (db : Db) (srcId : Nat) :
    List CostReportSnapshot :=
  db.snapshots.filter (fun s =>
    s.source == some srcId && s.status == Status.complete)

/-- `utils.get_latest_snapshots`: the pair (snapshots, missing), where each
missing item is the source name with its reason string. -/
def get_latest_snapshots (db : Db) (date : Option Date) :
    List CostReportSnapshot × List (String × String) :=
  match date with
  | some d =>
    let snapshots := get_latest_snapshots_for_date db d
    let source_ids := snapshots.filterMap (fun s => s.source)
    let missing :=
      ((activeSources db).filter (fun src => !(source_ids.contains src.id))).map
        (fun src => (src.name, "no entries for date"))
    (snapshots, missing)
  | none =>
    let snapshots :=
      (activeSources db).filterMap (fun src =>
        firstByMax (fun s => s.created_at) (completeSnapshotsForSource db src.id))
    let missing :=
      ((activeSources db).filter (fun src =>
          (firstByMax (fun s => s.created_at)
            (completeSnapshotsForSource db src.id)).isNone)).map
        (fun src => (src.name, "no snapshot"))
    (snapshots, missing)

/-- `CostReportSnapshotQuerySet.for_day`: complete snapshots whose
`report_date` equals the target day. -/
def for_day (db : Db) (target_date : Date) : List CostReportSnapshot :=
  db.snapshots.filter (fun s =>
    s.report_date == some target_date && s.status == Status.complete)

/-! ### CSV importer (`services.CostCsvImporter.import_file`) -/

/-- One event of the CSV stream: either a parsed row yielded by
`csv.DictReader`, or a stream-level exception raised while reading
(unreadable file, store lost mid-stream, ...). -/
inductive StreamEvent where
  | row (r : RawRow)
  | fatal (msg : String)
deriving DecidableEq, Repr

/-- `Customer.objects.get_or_create(tenant_id=...)`. -/
def resolveCustomer (db : Db) (r : RawRow) : Db × Nat :=
  match db.customers.find? (fun c => c.tenant_id == r.customerTenantId) with
  | some c => (db, c.id)
  | none =>
    let c : Customer := { id := db.nextId, tenant_id := r.customerTenantId, name := none }
    ({ db with customers := db.customers ++ [c], nextId := db.nextId + 1 }, c.id)

/-- `Subscription.objects.get_or_create(...)` followed by the
name-refresh: an existing row's name is overwritten when the CSV name is
truthy and differs. -/
def resolveSubscription (db : Db) (r : RawRow) (custId : Nat) : Db × Nat :=
  match db.subscriptions.find? (fun s => s.subscription_id == r.SubscriptionId) with
  | some s =>
    if truthy r.subscriptionName && s.name != r.subscriptionName then
      ({ db with subscriptions := db.subscriptions.map (fun s0 =>
          if s0.id = s.id then { s0 with name := r.subscriptionName } else s0) },
        s.id)
    else (db, s.id)
  | none =>
    let s : Subscription :=
      { id := db.nextId, subscription_id := r.SubscriptionId,
        name := r.subscriptionName, customer := custId }
    ({ db with subscriptions := db.subscriptions ++ [s], nextId := db.nextId + 1 }, s.id)

/-- `resource_id_val.rstrip('/').split('/')[-1]`. -/
def lastPathSegment (s : String) : String :=
  String.mk ((splitOnChar '/' (rstripChar '/' s.data)).getLastD [])

/-- The resource-name value computed before the resource get-or-create. -/
def resourceNameVal (r : RawRow) : Option String :=
  match r.ResourceId with
  | none => none
  | some s => if s = "" then none else some (lastPathSegment s)

/-- `rg_raw.strip().lower() if rg_raw else None`. -/
def resourceGroupVal (r : RawRow) : Option String :=
  match r.resourceGroupName with
  | none => none
  | some s => if s = "" then none else some (String.mk (lowerChars (stripChars s.data)))

/-- `Resource.objects.get_or_create(...)` followed by the backfill of
`resource_name` (only when previously falsy) and the correction of
`resource_group` (when truthy and changed). -/
def resolveResource (db : Db) (r : RawRow) : Db × Nat :=
  let rn := resourceNameVal r
  let rg := resourceGroupVal r
  match db.resources.find? (fun x => x.resource_id == r.ResourceId) with
  | some x =>
    let x1 := if truthy rn && !truthy x.resource_name then { x with resource_name := rn } else x
    let x2 := if truthy rg && x1.resource_group != rg then { x1 with resource_group := rg } else x1
    ({ db with resources := db.resources.map (fun x0 => if x0.id = x.id then x2 else x0) }, x.id)
  | none =>
    let x : Resource :=
      { id := db.nextId, resource_id := r.ResourceId, resource_name := rn,
        name := r.productOrderName, resource_group := rg,
        location := r.resourceLocation }
    ({ db with resources := db.resources ++ [x], nextId := db.nextId + 1 }, x.id)

/-- `Meter.objects.get_or_create(...)` followed by the service-family
refresh (when truthy and changed). -/
def resolveMeter (db : Db) (r : RawRow) : Db × Nat :=
  match db.meters.find? (fun m => m.meter_id == r.meterId) with
  | some m =>
    if truthy r.serviceFamily && m.service_family != r.serviceFamily then
      ({ db with meters := db.meters.map (fun m0 =>
          if m0.id = m.id then { m0 with service_family := r.serviceFamily } else m0) },
        m.id)
    else (db, m.id)
  | none =>
    let m : Meter :=
      { id := db.nextId, meter_id := r.meterId, name := r.meterName,
        category := r.meterCategory, subcategory := r.meterSubCategory,
        service_family := r.serviceFamily, unit := r.unitOfMeasure }
    ({ db with meters := db.meters ++ [m], nextId := db.nextId + 1 }, m.id)

/-- The entity-resolution block of the row loop, in source order:
customer, subscription, resource, meter.  Returns the updated store and
the pks used by the cost entry. -/
def resolveEntities (db : Db) (r : RawRow) : Db × Nat × Nat × Nat :=
  let rc := resolveCustomer db r
  let rs := resolveSubscription rc.1 r rc.2
  let rr := resolveResource rs.1 r
  let rm := resolveMeter rr.1 r
  (rm.1, rs.2, rr.2, rm.2)

/-- The `CostEntry.objects.create(...)` argument record built from one row. -/
def mkCostEntry (sid : Nat) (d : Date) (subId resId metId : Nat) (r : RawRow) :
    CostEntry :=
  { snapshot := sid, date := d, subscription := subId, resource := resId,
    meter := metId,
    cost_in_usd := orZero r.costInUsd,
    cost_in_billing_currency := some (orZero r.costInBillingCurrency),
    billing_currency := r.billingCurrency,
    quantity := orZero r.quantity,
    unit_price := orZero r.unitPrice,
    payg_price := some (orZero r.PayGPrice),
    pricing_model := r.pricingModel,
    charge_type := r.chargeType,
    publisher_name := r.publisherName,
    cost_center := r.costCenter,
    tags := orNone r.tags }

/-- The column tuple of the `unique_together` constraint on `CostEntry`. -/
def entryKey (e : CostEntry) :
    Nat × Date × Nat × Nat × Nat × DecimalValue × DecimalValue :=
  (e.snapshot, e.date, e.subscription, e.resource, e.meter, e.quantity,
    e.unit_price)

/-- Store-level insert under the unique constraint: a row whose key tuple
already exists is rejected (`IntegrityError`), returning `false`. -/
def insertEntry (db : Db) (e : CostEntry) : Db × Bool :=
  if db.entries.any (fun e0 => entryKey e0 == entryKey e) then (db, false)
  else ({ db with entries := db.entries ++ [e] }, true)

/-- The body of the row loop: resolve entities, then parse the date (a
failure skips the row), then insert the entry (a constraint rejection is
caught by the per-row handler and skips the row); `count` advances only on
a successful insert. -/
def processRow (db : Db) (sid : Nat) (r : RawRow) (count : Nat) : Db × Nat :=
  let res := resolveEntities db r
  match parse_date r.date with
  | none => (res.1, count)
  | some d =>
    let ins := insertEntry res.1 (mkCostEntry sid d res.2.1 res.2.2.1 res.2.2.2 r)
    (ins.1, if ins.2 then count + 1 else count)

/-- `snapshot.status = st; snapshot.save(update_fields=['status'])`. -/
def setSnapshotStatus (db : Db) (sid : Nat) (st : Status) : Db :=
  { db with snapshots := db.snapshots.map (fun s =>
      if s.id = sid then { s with status := st } else s) }

/-- The streaming loop of `import_file`: rows are processed in order; an
exhausted stream finalizes the snapshot as complete and returns the count;
a stream-level exception finalizes it as failed and re-raises. -/
def importLoop (db : Db) (sid : Nat) (stream : List StreamEvent) (count : Nat) :
    Db × Except String Nat :=
  match stream with
  | [] => (setSnapshotStatus db sid Status.complete, Except.ok count)
  | StreamEvent.row r :: rest =>
    let pr := processRow db sid r count
    importLoop pr.1 sid rest pr.2
  | StreamEvent.fatal msg :: _ =>
    (setSnapshotStatus db sid Status.failed, Except.error msg)

/-- `self.run_id or str(datetime.datetime.utcnow().timestamp())`. -/
def effectiveRunId (rid : Option String) (now : Nat) : String :=
  match rid with
  | some s => if s = "" then toString now else s
  | none => toString now

/-- The field values of the snapshot row written by `import_file`. -/
def newSnapshot (db : Db) (fname : String) (rid : Option String)
    (rd : Option Date) (src : Option Nat) (now : Nat) : CostReportSnapshot :=
  { id := db.nextId, run_id := effectiveRunId rid now, report_date := rd,
    file_name := fname, source := src, status := Status.in_progress,
    created_at := now }

/-- `CostReportSnapshot.objects.create(..., status=IN_PROGRESS)`: the
snapshot row written before any CSV row is processed. -/
def createSnapshot (db : Db) (fname : String) (rid : Option String)
    (rd : Option Date) (src : Option Nat) (now : Nat) : Db × Nat :=
  ({ db with
      snapshots := db.snapshots ++ [newSnapshot db fname rid rd src now],
      nextId := db.nextId + 1 },
    (newSnapshot db fname rid rd src now).id)

/-- `CostCsvImporter.import_file`: create the in-progress snapshot, then
stream the file through the row loop. -/
def import_file (db : Db) (fname : String) (rid : Option String)
    (rd : Option Date) (src : Option Nat) (now : Nat)
    (stream : List StreamEvent) : Db × Except String Nat :=
  let cs := createSnapshot db fname rid rd src now
  importLoop cs.1 cs.2 stream 0

/-- No event of the stream is a stream-level exception. -/
def noFatal (stream : List StreamEvent) : Prop :=
  ∀ ev ∈ stream, ∀ msg, ev ≠ StreamEvent.fatal msg

/-- `db.snapshots.find(id=sid)`, used to observe a snapshot's final state. -/
def findSnapshot (db : Db) (sid : Nat) : Option CostReportSnapshot :=
  db.snapshots.find? (fun s => s.id == sid)

/-! ### Aggregation endpoint (`views.CostEntryViewSet.aggregate`) -/

/-- The fixed allow-list mapping from external dimension names to internal
ORM paths. -/
def aggregate_group_by_mapping : List (String × String) :=
  [("resourceGroupName", "resource__resource_group"),
   ("subscriptionName", "subscription__name"),
   ("meterCategory", "meter__category"),
   ("meterSubCategory", "meter__subcategory"),
   ("serviceFamily", "meter__service_family"),
   ("resourceLocation", "resource__location"),
   ("chargeType", "charge_type"),
   ("pricingModel", "pricing_model"),
   ("publisherName", "publisher_name"),
   ("costCenter", "cost_center")]

/-- `mapping.get(f)`. -/
def mappingGet (f : String) : Option String :=
  (aggregate_group_by_mapping.find? (fun p => p.1 == f)).map (fun p => p.2)

/-- Outcome of the aggregate view's group-by handling: a 400 client error,
or the internal field list handed to `queryset.values(*fields)`. -/
inductive AggregateOutcome where
  | clientError (detail : String)
  | grouped (fields : List String)
deriving DecidableEq, Repr

/-- The group-by validation of `CostEntryViewSet.aggregate`: missing
`group_by` is a 400; otherwise unknown names are dropped by
`[mapping.get(f) for f in group_by if mapping.get(f)]` and an empty mapped
list is a 400. -/
def aggregate_resolve_group_by (group_by : List String) : AggregateOutcome :=
  if group_by.isEmpty then AggregateOutcome.clientError "group_by parameter required"
  else
    let fields := group_by.filterMap mappingGet
    if fields.isEmpty then AggregateOutcome.clientError "invalid group_by fields"
    else AggregateOutcome.grouped fields

/-! ### Specification predicates -/

/-- Eligibility for `get_latest_snapshot_for_date`: a complete snapshot
with at least one cost entry on the billing date. -/
def eligibleForDate (db : Db) (d : Date) (s : CostReportSnapshot) : Prop :=
  s.status = Status.complete ∧ ∃ e ∈ db.entries, e.snapshot = s.id ∧ e.date = d

/-- Contract of `get_latest_snapshot_for_date`: `none` exactly when no
complete snapshot has an entry on the date, otherwise an eligible snapshot
whose creation timestamp is maximal among all eligible ones. -/
def LatestSnapshotForDateSpec (db : Db) (d : Date) : Prop :=
  match get_latest_snapshot_for_date db d with
  | none => ∀ s ∈ db.snapshots, ¬ eligibleForDate db d s
  | some s =>
    s ∈ db.snapshots ∧ eligibleForDate db d s ∧
      ∀ t ∈ db.snapshots, eligibleForDate db d t → t.created_at ≤ s.created_at

/-- Contract of `get_latest_snapshots` when a date is given: every
returned snapshot belongs to an active source, is complete with
`report_date` equal to the date, has the highest id among that source's
such snapshots, and at most one snapshot is returned per source. -/
def LatestSnapshotsForDateSpec (db : Db) (d : Date) : Prop :=
  (∀ s ∈ (get_latest_snapshots db (some d)).1,
      s ∈ db.snapshots ∧ s.report_date = some d ∧ s.status = Status.complete ∧
        ∃ src ∈ db.sources, src.is_active = true ∧ s.source = some src.id ∧
          ∀ t ∈ db.snapshots, t.source = some src.id → t.report_date = some d →
            t.status = Status.complete → t.id ≤ s.id) ∧
  ∀ s ∈ (get_latest_snapshots db (some d)).1,
    ∀ t ∈ (get_latest_snapshots db (some d)).1, s.source = t.source → s = t

/-- Contract shared by every resolver operation: only complete snapshots
are ever returned, never in-progress or failed ones. -/
def OnlyCompleteSpec (db : Db) (d : Date) (od : Option Date) : Prop :=
  (∀ s, get_latest_snapshot_for_date db d = some s → s.status = Status.complete) ∧
  (∀ s ∈ (get_latest_snapshots db od).1, s.status = Status.complete) ∧
  (∀ s ∈ for_day db d, s.status = Status.complete)

/-- Contract of the missing-source report of `get_latest_snapshots`: an
active source with no complete snapshot for the requested report date is
reported with reason "no entries for date"; with no date filter, an active
source with no complete snapshot at all is reported with reason
"no snapshot". -/
def MissingSourceSpec (db : Db) (d : Date) (src : BillingBlobSource) : Prop :=
  (src ∈ db.sources → src.is_active = true →
      (∀ s ∈ db.snapshots,
        ¬(s.source = some src.id ∧ s.report_date = some d ∧
            s.status = Status.complete)) →
      (src.name, "no entries for date") ∈ (get_latest_snapshots db (some d)).2) ∧
  (src ∈ db.sources → src.is_active = true →
      (∀ s ∈ db.snapshots, ¬(s.source = some src.id ∧ s.status = Status.complete)) →
      (src.name, "no snapshot") ∈ (get_latest_snapshots db none).2)

/-- Lifecycle contract of `import_file`: the snapshot row is created with
status in-progress before any row is processed; a stream exhausted without
a stream-level error finalizes it complete and returns the number of rows
actually inserted; a stream-level error finalizes it failed and re-raises
the exception. -/
def ImportFileSpec (db : Db) (fname : String) (rid : Option String)
    (rd : Option Date) (src : Option Nat) (now : Nat)
    (stream : List StreamEvent) : Prop :=
  (∃ snap, (createSnapshot db fname rid rd src now).1.snapshots =
        db.snapshots ++ [snap] ∧
      snap.id = (createSnapshot db fname rid rd src now).2 ∧
      snap.status = Status.in_progress ∧
      (createSnapshot db fname rid rd src now).1.entries = db.entries ∧
      import_file db fname rid rd src now stream =
        importLoop (createSnapshot db fname rid rd src now).1 snap.id stream 0) ∧
  (noFatal stream →
    ∃ n snap, (import_file db fname rid rd src now stream).2 = Except.ok n ∧
      (import_file db fname rid rd src now stream).1.entries.length =
        db.entries.length + n ∧
      findSnapshot (import_file db fname rid rd src now stream).1
          (createSnapshot db fname rid rd src now).2 = some snap ∧
      snap.status = Status.complete) ∧
  ∀ pre msg rest, stream = pre ++ StreamEvent.fatal msg :: rest → noFatal pre →
    ∃ snap, (import_file db fname rid rd src now stream).2 = Except.error msg ∧
      findSnapshot (import_file db fname rid rd src now stream).1
          (createSnapshot db fname rid rd src now).2 = some snap ∧
      snap.status = Status.failed

/-- Contract of the per-row date-error path: a row whose date does not
parse is skipped without aborting — the count and the entry table are
untouched, the loop continues with the remaining rows, and when the rest
of the stream has no stream-level error the import still returns a count,
not an exception. -/
def RowDateSkipSpec (db : Db) (sid : Nat) (r : RawRow) (c : Nat)
    (rest : List StreamEvent) : Prop :=
  (processRow db sid r c).2 = c ∧
  (processRow db sid r c).1.entries = db.entries ∧
  importLoop db sid (StreamEvent.row r :: rest) c =
    importLoop (processRow db sid r c).1 sid rest c ∧
  (noFatal rest →
    ∃ n, (importLoop db sid (StreamEvent.row r :: rest) c).2 = Except.ok n)

/-- No two rows of the entry table agree on the `unique_together` tuple. -/
def UniqueEntryKeys (l : List CostEntry) : Prop :=
  l.Pairwise (fun a b => entryKey a ≠ entryKey b)

/-- Contract of the uniqueness constraint: an insert whose key tuple is
already present is rejected by the store with no change, the row loop
preserves key uniqueness, and so does a whole import run. -/
def EntryUniquenessSpec (db : Db) (e : CostEntry) (sid : Nat) (r : RawRow)
    (c : Nat) (fname : String) (rid : Option String) (rd : Option Date)
    (src : Option Nat) (now : Nat) (stream : List StreamEvent) : Prop :=
  ((∃ e0 ∈ db.entries, entryKey e0 = entryKey e) → insertEntry db e = (db, false)) ∧
  (UniqueEntryKeys db.entries → UniqueEntryKeys (processRow db sid r c).1.entries) ∧
  (UniqueEntryKeys db.entries →
    UniqueEntryKeys (import_file db fname rid rd src now stream).1.entries)

/-- Contract of the row-skip path's side effects: when the date check
fails, the store state is exactly the one produced by the entity
resolution that already ran, with the count unchanged. -/
def EntityResolutionBeforeDateCheckSpec (db : Db) (sid : Nat) (r : RawRow)
    (c : Nat) : Prop :=
  processRow db sid r c = ((resolveEntities db r).1, c)

/-- A CSV cell that is absent or blank. -/
def blankCell (v : Option String) : Prop := v = none ∨ v = some ""

/-- Values stored for a row whose monetary cells are all absent/blank:
every monetary column — the required ones and the nullable optional ones —
receives zero. -/
def BlankMoneyFieldsSpec (sid : Nat) (d : Date) (si ri mi : Nat)
    (r : RawRow) : Prop :=
  (mkCostEntry sid d si ri mi r).cost_in_usd = DecimalValue.int0 ∧
  (mkCostEntry sid d si ri mi r).quantity = DecimalValue.int0 ∧
  (mkCostEntry sid d si ri mi r).unit_price = DecimalValue.int0 ∧
  (mkCostEntry sid d si ri mi r).cost_in_billing_currency =
    some DecimalValue.int0 ∧
  (mkCostEntry sid d si ri mi r).payg_price = some DecimalValue.int0

/-- Group-by handling of the aggregate endpoint: the request is rejected
with a client error exactly when no requested name maps to an internal
field (in particular when `group_by` is empty); otherwise the grouping
uses exactly the mapped fields, every one of which is an internal path of
the allow-list — unknown names are dropped, never passed through. -/
def AggregateGroupBySpec (gb : List String) : Prop :=
  match aggregate_resolve_group_by gb with
  | AggregateOutcome.clientError _ => gb.filterMap mappingGet = []
  | AggregateOutcome.grouped fields =>
    fields = gb.filterMap mappingGet ∧ fields ≠ [] ∧
      ∀ f ∈ fields, f ∈ aggregate_group_by_mapping.map (fun p => p.2)

/-! ### Example data -/

/-- A row whose date cell is an ISO date, which `strptime("%m/%d/%Y")`
rejects, but whose entity cells are all present. -/
def exampleBadDateRow : RawRow :=
  { customerTenantId := some "tenant-x", SubscriptionId := some "sub-x",
    subscriptionName := some "Sub X", ResourceId := some "/rg/providers/res-x",
    meterId := some "meter-x", date := some "2024-01-01" }

/-- A row with a parseable date whose monetary cells are all absent or
blank. -/
def blankMoneyRow : RawRow :=
  { customerTenantId := some "tenant-b", SubscriptionId := some "sub-b",
    ResourceId := some "/x/res-b", meterId := some "meter-b",
    date := some "01/02/2024", costInUsd := some "",
    costInBillingCurrency := none, quantity := some "", unitPrice := none,
    PayGPrice := some "" }

/-- A concrete date used by the witnesses. -/
def exampleDate : Date := { month := 1, day := 15, year := 2024 }

/-- A concrete cost entry living in snapshot 10 on `exampleDate`. -/
def exampleEntry10 : CostEntry :=
  { snapshot := 10, date := exampleDate, subscription := 3, resource := 4,
    meter := 5, cost_in_usd := DecimalValue.ofString "1.0",
    cost_in_billing_currency := none, billing_currency := none,
    quantity := DecimalValue.ofString "1",
    unit_price := DecimalValue.ofString "2", payg_price := none,
    pricing_model := none, charge_type := none, publisher_name := none,
    cost_center := none, tags := none }

/-- Two concrete cost entries living in snapshot 11 on `exampleDate`, so
that snapshot 11 has more rows than snapshot 10. -/
def exampleEntry11a : CostEntry :=
  { exampleEntry10 with snapshot := 11, quantity := DecimalValue.ofString "3" }

/-- Second entry of snapshot 11 (distinct uniqueness tuple). -/
def exampleEntry11b : CostEntry :=
  { exampleEntry10 with snapshot := 11, quantity := DecimalValue.ofString "4" }

/-- A concrete store with two active sources; source 1 has two complete
snapshots and one in-progress snapshot for `exampleDate`, source 2 has
none.  Snapshot 10 was created later (timestamp 100) but has the lower
id; snapshot 11 has the higher id, the older timestamp 90, and more
rows. -/
def exampleDb : Db :=
  { sources := [{ id := 1, name := "prod", is_active := true },
                { id := 2, name := "dev", is_active := true }],
    snapshots :=
      [{ id := 10, run_id := "runA", report_date := some exampleDate,
         file_name := "a.csv", source := some 1, status := Status.complete,
         created_at := 100 },
       { id := 11, run_id := "runB", report_date := some exampleDate,
         file_name := "b.csv", source := some 1, status := Status.complete,
         created_at := 90 },
       { id := 12, run_id := "runC", report_date := some exampleDate,
         file_name := "c.csv", source := some 1,
         status := Status.in_progress, created_at := 200 }],
    entries := [exampleEntry10, exampleEntry11a, exampleEntry11b],
    nextId := 20 }

/-! ### Helper lemmas -/

theorem mem_activeSources {db : Db} {src : BillingBlobSource} :
    src ∈ activeSources db ↔ src ∈ db.sources ∧ src.is_active = true := by
  simp [activeSources, List.mem_filter]

theorem mem_snapshotsForSourceDate {db : Db} {srcId : Nat} {d : Date}
    {s : CostReportSnapshot} :
    s ∈ snapshotsForSourceDate db srcId d ↔
      s ∈ db.snapshots ∧ s.source = some srcId ∧ s.report_date = some d ∧
        s.status = Status.complete := by
  simp [snapshotsForSourceDate, List.mem_filter, and_assoc]

theorem mem_completeSnapshotsForSource {db : Db} {srcId : Nat}
    {s : CostReportSnapshot} :
    s ∈ completeSnapshotsForSource db srcId ↔
      s ∈ db.snapshots ∧ s.source = some srcId ∧ s.status = Status.complete := by
  simp [completeSnapshotsForSource, List.mem_filter, and_assoc]

theorem mem_latest_for_date {db : Db} {d : Date} {s : CostReportSnapshot}
    (h : s ∈ get_latest_snapshots_for_date db d) :
    ∃ src, src ∈ db.sources ∧ src.is_active = true ∧
      firstByMax (fun x => x.id) (snapshotsForSourceDate db src.id d) = some s := by
  unfold get_latest_snapshots_for_date at h
  rw [List.mem_filterMap] at h
  obtain ⟨src, hsrc, hfm⟩ := h
  rw [mem_activeSources] at hsrc
  exact ⟨src, hsrc.1, hsrc.2, hfm⟩

theorem fst_get_latest_snapshots_some (db : Db) (d : Date) :
    (get_latest_snapshots db (some d)).1 = get_latest_snapshots_for_date db d := rfl

theorem pickMax_cases (f : CostReportSnapshot → Nat) (acc : CostReportSnapshot) :
    ∀ l : List CostReportSnapshot, pickMax f acc l = acc ∨ pickMax f acc l ∈ l := by
  intro l
  induction l generalizing acc with
  | nil => exact Or.inl rfl
  | cons s rest ih =>
    by_cases h : f acc < f s
    · rcases ih (if f acc < f s then s else acc) with h1 | h1
      · right; rw [pickMax, h1]; simp [h]
      · right; exact List.mem_cons_of_mem _ h1
    · rcases ih (if f acc < f s then s else acc) with h1 | h1
      · left; rw [pickMax, h1]; simp [h]
      · right; exact List.mem_cons_of_mem _ h1

theorem pickMax_ge_acc (f : CostReportSnapshot → Nat) (acc : CostReportSnapshot) :
    ∀ l : List CostReportSnapshot, f acc ≤ f (pickMax f acc l) := by
  intro l
  induction l generalizing acc with
  | nil => exact Nat.le_refl _
  | cons s rest ih =>
    rw [pickMax]
    by_cases h : f acc < f s
    · simp only [h, if_true]
      exact Nat.le_trans (Nat.le_of_lt h) (ih s)
    · simp only [h, if_false]
      exact ih acc

theorem pickMax_ge_mem (f : CostReportSnapshot → Nat) (acc : CostReportSnapshot) :
    ∀ l : List CostReportSnapshot, ∀ t ∈ l, f t ≤ f (pickMax f acc l) := by
  intro l
  induction l generalizing acc with
  | nil => intro t ht; cases ht
  | cons s rest ih =>
    intro t ht
    rw [pickMax]
    rcases List.mem_cons.mp ht with rfl | hmem
    · by_cases h : f acc < f t
      · simp only [h, if_true]; exact pickMax_ge_acc f t rest
      · simp only [h, if_false]
        exact Nat.le_trans (Nat.le_of_not_lt h) (pickMax_ge_acc f acc rest)
    · exact ih _ t hmem

theorem firstByMax_mem {f : CostReportSnapshot → Nat}
    {l : List CostReportSnapshot} {s : CostReportSnapshot}
    (h : firstByMax f l = some s) : s ∈ l := by
  cases l with
  | nil => cases h
  | cons a rest =>
    rw [firstByMax] at h
    injection h with h
    rcases pickMax_cases f a rest with h1 | h1
    · rw [← h, h1]; exact List.mem_cons_self a rest
    · rw [← h]; exact List.mem_cons_of_mem _ h1

theorem firstByMax_isMax {f : CostReportSnapshot → Nat}
    {l : List CostReportSnapshot} {s : CostReportSnapshot}
    (h : firstByMax f l = some s) : ∀ t ∈ l, f t ≤ f s := by
  cases l with
  | nil => cases h
  | cons a rest =>
    rw [firstByMax] at h
    injection h with h
    intro t ht
    rcases List.mem_cons.mp ht with rfl | hmem
    · rw [← h]; exact pickMax_ge_acc f t rest
    · rw [← h]; exact pickMax_ge_mem f a rest t hmem

theorem firstByMax_eq_none {f : CostReportSnapshot → Nat}
    {l : List CostReportSnapshot} (h : firstByMax f l = none) : l = [] := by
  cases l with
  | nil => rfl
  | cons a rest => rw [firstByMax] at h; cases h


/-! ### Claim theorems -/

/-- C1: for every billing date, `get_latest_snapshot_for_date` returns a
complete snapshot with an entry on that date whose creation timestamp is
maximal among all such snapshots, and returns none exactly when no
complete snapshot has an entry on that date; the selection never depends
on row counts. -/
theorem get_latest_snapshot_for_date_correct (db : Db) (d : Date) :
    LatestSnapshotForDateSpec db d := by
  unfold LatestSnapshotForDateSpec get_latest_snapshot_for_date
  by_cases hany : db.entries.any (fun e => e.date == d) = true
  · rw [if_pos hany]
    cases hfm : firstByMax (fun s => s.created_at)
        (db.snapshots.filter (fun s =>
          s.status == Status.complete &&
            db.entries.any (fun e => e.snapshot == s.id && e.date == d))) with
    | none =>
      simp only []
      intro s hs ⟨hst, e, he, hes, hed⟩
      have hempty := firstByMax_eq_none hfm
      have : s ∈ db.snapshots.filter (fun s =>
          s.status == Status.complete &&
            db.entries.any (fun e => e.snapshot == s.id && e.date == d)) := by
        rw [List.mem_filter]
        refine ⟨hs, ?_⟩
        simp only [Bool.and_eq_true, beq_iff_eq, List.any_eq_true]
        exact ⟨hst, e, he, hes, hed⟩
      rw [hempty] at this
      cases this
    | some s =>
      simp only []
      have hmem := firstByMax_mem hfm
      rw [List.mem_filter] at hmem
      obtain ⟨hs, hpred⟩ := hmem
      simp only [Bool.and_eq_true, beq_iff_eq, List.any_eq_true] at hpred
      refine ⟨hs, ⟨hpred.1, ?_⟩, ?_⟩
      · obtain ⟨e, he, hes, hed⟩ := hpred.2
        exact ⟨e, he, hes, hed⟩
      · intro t ht ⟨hst, e, he, hes, hed⟩
        apply firstByMax_isMax hfm
        rw [List.mem_filter]
        refine ⟨ht, ?_⟩
        simp only [Bool.and_eq_true, beq_iff_eq, List.any_eq_true]
        exact ⟨hst, e, he, hes, hed⟩
  · rw [if_neg hany]
    simp only []
    intro s hs ⟨hst, e, he, hes, hed⟩
    apply hany
    rw [List.any_eq_true]
    exact ⟨e, he, by simp [hed]⟩

/-- C2: with a date, `get_latest_snapshots` picks, per active source, the
complete snapshot with `report_date` equal to the date that has the
highest primary key — not the latest creation timestamp — and returns at
most one snapshot per source. -/
theorem get_latest_snapshots_with_date_correct (db : Db) (d : Date) :
    LatestSnapshotsForDateSpec db d := by
  constructor
  · intro s hs
    rw [fst_get_latest_snapshots_some] at hs
    obtain ⟨src, hsrc, hact, hfm⟩ := mem_latest_for_date hs
    have hmem := firstByMax_mem hfm
    rw [mem_snapshotsForSourceDate] at hmem
    obtain ⟨hsnap, hsource, hdate, hstatus⟩ := hmem
    refine ⟨hsnap, hdate, hstatus, src, hsrc, hact, hsource, ?_⟩
    intro t ht htsrc htdate htst
    exact firstByMax_isMax hfm t
      (mem_snapshotsForSourceDate.mpr ⟨ht, htsrc, htdate, htst⟩)
  · intro s hs t ht hst
    rw [fst_get_latest_snapshots_some] at hs ht
    obtain ⟨src1, _, _, hfm1⟩ := mem_latest_for_date hs
    obtain ⟨src2, _, _, hfm2⟩ := mem_latest_for_date ht
    have hs1 := (mem_snapshotsForSourceDate.mp (firstByMax_mem hfm1)).2.1
    have ht1 := (mem_snapshotsForSourceDate.mp (firstByMax_mem hfm2)).2.1
    have hid : src1.id = src2.id := by
      rw [hs1, ht1] at hst
      exact Option.some.inj hst
    rw [hid, hfm2] at hfm1
    exact (Option.some.inj hfm1).symm

/-- C3: every snapshot returned by `get_latest_snapshot_for_date`,
`get_latest_snapshots` (with or without a date) or the `for_day` queryset
has status complete; in-progress and failed snapshots are never returned,
whatever their dates, recency or cost entries. -/
theorem resolver_returns_only_complete (db : Db) (d : Date) (od : Option Date) :
    OnlyCompleteSpec db d od := by
  refine ⟨?_, ?_, ?_⟩
  · intro s hs
    unfold get_latest_snapshot_for_date at hs
    by_cases hany : db.entries.any (fun e => e.date == d) = true
    · rw [if_pos hany] at hs
      have hmem := firstByMax_mem hs
      rw [List.mem_filter] at hmem
      have := hmem.2
      simp only [Bool.and_eq_true, beq_iff_eq] at this
      exact this.1
    · rw [if_neg hany] at hs
      cases hs
  · intro s hs
    cases od with
    | some d' =>
      rw [fst_get_latest_snapshots_some] at hs
      obtain ⟨src, _, _, hfm⟩ := mem_latest_for_date hs
      exact (mem_snapshotsForSourceDate.mp (firstByMax_mem hfm)).2.2.2
    | none =>
      simp only [get_latest_snapshots, List.mem_filterMap] at hs
      obtain ⟨src, _, hfm⟩ := hs
      exact (mem_completeSnapshotsForSource.mp (firstByMax_mem hfm)).2.2
  · intro s hs
    unfold for_day at hs
    rw [List.mem_filter] at hs
    have := hs.2
    simp only [Bool.and_eq_true, beq_iff_eq] at this
    exact this.2

/-- C9: `get_latest_snapshots` reports every active source lacking an
eligible snapshot: reason "no entries for date" when a date was given and
the source has no complete snapshot with that report date, and reason
"no snapshot" when no date was given and the source has no complete
snapshot at all. -/
theorem get_latest_snapshots_missing_correct (db : Db) (d : Date)
    (src : BillingBlobSource) : MissingSourceSpec db d src := by
  constructor
  · intro hsrc hact hnone
    show (src.name, "no entries for date") ∈
      ((activeSources db).filter (fun s0 =>
          !(((get_latest_snapshots_for_date db d).filterMap
              (fun s => s.source)).contains s0.id))).map
        (fun s0 => (s0.name, "no entries for date"))
    refine List.mem_map.mpr ⟨src, ?_, rfl⟩
    rw [List.mem_filter]
    refine ⟨mem_activeSources.mpr ⟨hsrc, hact⟩, ?_⟩
    have hnotin : src.id ∉ (get_latest_snapshots_for_date db d).filterMap
        (fun s => s.source) := by
      intro hin
      rw [List.mem_filterMap] at hin
      obtain ⟨snap, hsnapmem, hsnapsrc⟩ := hin
      obtain ⟨src', _, _, hfm⟩ := mem_latest_for_date hsnapmem
      have hprops := mem_snapshotsForSourceDate.mp (firstByMax_mem hfm)
      exact hnone snap hprops.1 ⟨hsnapsrc, hprops.2.2.1, hprops.2.2.2⟩
    simpa using hnotin
  · intro hsrc hact hnone
    show (src.name, "no snapshot") ∈
      ((activeSources db).filter (fun s0 =>
          (firstByMax (fun s => s.created_at)
            (completeSnapshotsForSource db s0.id)).isNone)).map
        (fun s0 => (s0.name, "no snapshot"))
    refine List.mem_map.mpr ⟨src, ?_, rfl⟩
    rw [List.mem_filter]
    refine ⟨mem_activeSources.mpr ⟨hsrc, hact⟩, ?_⟩
    cases hfm : firstByMax (fun s => s.created_at)
        (completeSnapshotsForSource db src.id) with
    | none => rfl
    | some s =>
      obtain ⟨hs, hsource, hstatus⟩ :=
        mem_completeSnapshotsForSource.mp (firstByMax_mem hfm)
      exact absurd ⟨hsource, hstatus⟩ (hnone s hs)

/-! ### Importer lemmas -/

theorem resolveCustomer_preserves (db : Db) (r : RawRow) :
    (resolveCustomer db r).1.snapshots = db.snapshots ∧
      (resolveCustomer db r).1.entries = db.entries := by
  unfold resolveCustomer
  cases db.customers.find? (fun c => c.tenant_id == r.customerTenantId) <;>
    exact ⟨rfl, rfl⟩

theorem resolveSubscription_preserves (db : Db) (r : RawRow) (custId : Nat) :
    (resolveSubscription db r custId).1.snapshots = db.snapshots ∧
      (resolveSubscription db r custId).1.entries = db.entries := by
  unfold resolveSubscription
  cases db.subscriptions.find? (fun s => s.subscription_id == r.SubscriptionId) with
  | none => exact ⟨rfl, rfl⟩
  | some s =>
    dsimp only []
    by_cases h : (truthy r.subscriptionName && s.name != r.subscriptionName) = true
    · rw [if_pos h]; exact ⟨rfl, rfl⟩
    · rw [if_neg h]; exact ⟨rfl, rfl⟩

theorem resolveResource_preserves (db : Db) (r : RawRow) :
    (resolveResource db r).1.snapshots = db.snapshots ∧
      (resolveResource db r).1.entries = db.entries := by
  unfold resolveResource
  cases db.resources.find? (fun x => x.resource_id == r.ResourceId) <;>
    exact ⟨rfl, rfl⟩

theorem resolveMeter_preserves (db : Db) (r : RawRow) :
    (resolveMeter db r).1.snapshots = db.snapshots ∧
      (resolveMeter db r).1.entries = db.entries := by
  unfold resolveMeter
  cases db.meters.find? (fun m => m.meter_id == r.meterId) with
  | none => exact ⟨rfl, rfl⟩
  | some m =>
    dsimp only []
    by_cases h : (truthy r.serviceFamily && m.service_family != r.serviceFamily) = true
    · rw [if_pos h]; exact ⟨rfl, rfl⟩
    · rw [if_neg h]; exact ⟨rfl, rfl⟩

theorem resolveEntities_preserves (db : Db) (r : RawRow) :
    (resolveEntities db r).1.snapshots = db.snapshots ∧
      (resolveEntities db r).1.entries = db.entries := by
  unfold resolveEntities
  have h1 := resolveCustomer_preserves db r
  have h2 := resolveSubscription_preserves (resolveCustomer db r).1 r
    (resolveCustomer db r).2
  have h3 := resolveResource_preserves
    (resolveSubscription (resolveCustomer db r).1 r (resolveCustomer db r).2).1 r
  have h4 := resolveMeter_preserves
    (resolveResource
      (resolveSubscription (resolveCustomer db r).1 r (resolveCustomer db r).2).1 r).1 r
  exact ⟨h4.1.trans (h3.1.trans (h2.1.trans h1.1)),
    h4.2.trans (h3.2.trans (h2.2.trans h1.2))⟩

theorem insertEntry_snapshots (db : Db) (e : CostEntry) :
    (insertEntry db e).1.snapshots = db.snapshots := by
  unfold insertEntry
  by_cases h : db.entries.any (fun e0 => entryKey e0 == entryKey e) = true
  · rw [if_pos h]
  · rw [if_neg h]

theorem processRow_snapshots (db : Db) (sid : Nat) (r : RawRow) (c : Nat) :
    (processRow db sid r c).1.snapshots = db.snapshots := by
  unfold processRow
  cases parse_date r.date with
  | none => exact (resolveEntities_preserves db r).1
  | some d =>
    exact (insertEntry_snapshots _ _).trans (resolveEntities_preserves db r).1

theorem processRow_count (db : Db) (sid : Nat) (r : RawRow) (c : Nat) :
    (processRow db sid r c).1.entries.length + c =
      db.entries.length + (processRow db sid r c).2 := by
  unfold processRow
  cases parse_date r.date with
  | none => rw [(resolveEntities_preserves db r).2]
  | some d =>
    unfold insertEntry
    by_cases h : (resolveEntities db r).1.entries.any
        (fun e0 => entryKey e0 ==
          entryKey (mkCostEntry sid d (resolveEntities db r).2.1
            (resolveEntities db r).2.2.1 (resolveEntities db r).2.2.2 r)) = true
    · simp only [if_pos h]
      simp [(resolveEntities_preserves db r).2]
    · simp only [if_neg h]
      simp [List.length_append, (resolveEntities_preserves db r).2]
      omega

theorem setSnapshotStatus_entries (db : Db) (sid : Nat) (st : Status) :
    (setSnapshotStatus db sid st).entries = db.entries := rfl

theorem importLoop_ok (sid : Nat) (stream : List StreamEvent)
    (hnf : noFatal stream) : ∀ (db : Db) (c : Nat),
    (importLoop db sid stream c).1.snapshots =
        db.snapshots.map (fun s =>
          if s.id = sid then { s with status := Status.complete } else s) ∧
      ∃ n, (importLoop db sid stream c).2 = Except.ok n ∧
        (importLoop db sid stream c).1.entries.length + c =
          db.entries.length + n := by
  induction stream with
  | nil =>
    intro db c
    exact ⟨rfl, c, rfl, rfl⟩
  | cons ev rest ih =>
    intro db c
    cases ev with
    | row r =>
      have hnf' : noFatal rest := fun e he msg => hnf e (List.mem_cons_of_mem _ he) msg
      have hloop : importLoop db sid (StreamEvent.row r :: rest) c =
          importLoop (processRow db sid r c).1 sid rest (processRow db sid r c).2 := rfl
      rw [hloop]
      obtain ⟨hsnap, n, hok, hlen⟩ := ih hnf' (processRow db sid r c).1 (processRow db sid r c).2
      refine ⟨hsnap.trans (by rw [processRow_snapshots]), n, hok, ?_⟩
      have hc := processRow_count db sid r c
      omega
    | fatal msg =>
      exact absurd rfl (hnf (StreamEvent.fatal msg) (List.mem_cons_self _ _) msg)

theorem importLoop_fatal (sid : Nat) (msg : String) :
    ∀ (pre : List StreamEvent), noFatal pre →
      ∀ (rest : List StreamEvent) (db : Db) (c : Nat),
      (importLoop db sid (pre ++ StreamEvent.fatal msg :: rest) c).1.snapshots =
          db.snapshots.map (fun s =>
            if s.id = sid then { s with status := Status.failed } else s) ∧
        (importLoop db sid (pre ++ StreamEvent.fatal msg :: rest) c).2 =
          Except.error msg := by
  intro pre
  induction pre with
  | nil => intro _ rest db c; exact ⟨rfl, rfl⟩
  | cons ev pre' ih =>
    intro hnf rest db c
    cases ev with
    | row r =>
      have hnf' : noFatal pre' := fun e he m => hnf e (List.mem_cons_of_mem _ he) m
      have hloop : importLoop db sid
          ((StreamEvent.row r :: pre') ++ StreamEvent.fatal msg :: rest) c =
          importLoop (processRow db sid r c).1 sid
            (pre' ++ StreamEvent.fatal msg :: rest) (processRow db sid r c).2 := rfl
      rw [hloop]
      obtain ⟨hsnap, herr⟩ := ih hnf' rest (processRow db sid r c).1 (processRow db sid r c).2
      exact ⟨hsnap.trans (by rw [processRow_snapshots]), herr⟩
    | fatal m =>
      exact absurd rfl (hnf (StreamEvent.fatal m) (List.mem_cons_self _ _) m)

theorem find_updated_snapshot (sid : Nat) (st : Status)
    (snap : CostReportSnapshot) (hid : snap.id = sid) :
    ∀ l : List CostReportSnapshot, (∀ s ∈ l, s.id ≠ sid) →
      List.find? (fun s => s.id == sid)
          ((l ++ [snap]).map (fun s =>
            if s.id = sid then { s with status := st } else s)) =
        some { snap with status := st } := by
  intro l
  induction l with
  | nil =>
    intro _
    simp only [List.nil_append, List.map_cons, List.map_nil, if_pos hid]
    rw [List.find?_cons_of_pos]
    simp [hid]
  | cons a l' ih =>
    intro h
    have ha : a.id ≠ sid := h a (List.mem_cons_self _ _)
    simp only [List.cons_append, List.map_cons]
    rw [if_neg ha, List.find?_cons_of_neg]
    · exact ih (fun s hs => h s (List.mem_cons_of_mem _ hs))
    · simp [ha]

theorem insertEntry_unique {db : Db} (e : CostEntry)
    (h : UniqueEntryKeys db.entries) :
    UniqueEntryKeys (insertEntry db e).1.entries := by
  unfold insertEntry
  by_cases hany : db.entries.any (fun e0 => entryKey e0 == entryKey e) = true
  · rw [if_pos hany]; exact h
  · rw [if_neg hany]
    show UniqueEntryKeys (db.entries ++ [e])
    unfold UniqueEntryKeys
    rw [List.pairwise_append]
    refine ⟨h, List.pairwise_singleton _ _, ?_⟩
    intro a ha b hb
    rw [List.mem_singleton] at hb
    subst hb
    intro heq
    apply hany
    rw [List.any_eq_true]
    exact ⟨a, ha, by simp [heq]⟩

theorem processRow_unique (db : Db) (sid : Nat) (r : RawRow) (c : Nat)
    (h : UniqueEntryKeys db.entries) :
    UniqueEntryKeys (processRow db sid r c).1.entries := by
  have hres : UniqueEntryKeys (resolveEntities db r).1.entries := by
    rw [(resolveEntities_preserves db r).2]; exact h
  unfold processRow
  cases parse_date r.date with
  | none => exact hres
  | some d => exact insertEntry_unique _ hres

theorem importLoop_unique (sid : Nat) :
    ∀ (stream : List StreamEvent) (db : Db) (c : Nat),
      UniqueEntryKeys db.entries →
      UniqueEntryKeys (importLoop db sid stream c).1.entries := by
  intro stream
  induction stream with
  | nil => intro db c h; exact h
  | cons ev rest ih =>
    intro db c h
    cases ev with
    | row r => exact ih _ _ (processRow_unique db sid r c h)
    | fatal msg => exact h

theorem orZero_blank {v : Option String} (h : blankCell v) :
    orZero v = DecimalValue.int0 := by
  rcases h with h | h <;> subst h <;> rfl

/-- C4: `import_file` creates the snapshot in progress before processing
any row; an exhausted stream without stream-level error yields status
complete and the count of inserted rows; a stream-level error yields
status failed and the exception is re-raised. -/
theorem import_file_lifecycle (db : Db) (fname : String) (rid : Option String)
    (rd : Option Date) (src : Option Nat) (now : Nat) (stream : List StreamEvent)
    (hfresh : ∀ s ∈ db.snapshots, s.id < db.nextId) :
    ImportFileSpec db fname rid rd src now stream := by
  unfold ImportFileSpec
  have hne : ∀ s ∈ db.snapshots,
      s.id ≠ (createSnapshot db fname rid rd src now).2 :=
    fun s hs => Nat.ne_of_lt (hfresh s hs)
  refine ⟨⟨newSnapshot db fname rid rd src now, rfl, rfl, rfl, rfl, rfl⟩, ?_, ?_⟩
  · intro hnf
    obtain ⟨hsnap, n, hok, hlen⟩ :=
      importLoop_ok (createSnapshot db fname rid rd src now).2 stream hnf
        (createSnapshot db fname rid rd src now).1 0
    refine ⟨n, { newSnapshot db fname rid rd src now with status := Status.complete },
      hok, ?_, ?_, rfl⟩
    · have hent : (createSnapshot db fname rid rd src now).1.entries = db.entries := rfl
      rw [hent] at hlen
      show (importLoop (createSnapshot db fname rid rd src now).1
        (createSnapshot db fname rid rd src now).2 stream 0).1.entries.length =
          db.entries.length + n
      omega
    · show List.find? (fun s => s.id == (createSnapshot db fname rid rd src now).2)
        (importLoop (createSnapshot db fname rid rd src now).1
          (createSnapshot db fname rid rd src now).2 stream 0).1.snapshots = _
      rw [hsnap]
      exact find_updated_snapshot (createSnapshot db fname rid rd src now).2
        Status.complete (newSnapshot db fname rid rd src now) rfl db.snapshots hne
  · intro pre msg rest hdecomp hnfpre
    obtain ⟨hsnap, herr⟩ :=
      importLoop_fatal (createSnapshot db fname rid rd src now).2 msg pre hnfpre
        rest (createSnapshot db fname rid rd src now).1 0
    refine ⟨{ newSnapshot db fname rid rd src now with status := Status.failed },
      ?_, ?_, rfl⟩
    · show (importLoop (createSnapshot db fname rid rd src now).1
        (createSnapshot db fname rid rd src now).2 stream 0).2 = Except.error msg
      rw [hdecomp]
      exact herr
    · show List.find? (fun s => s.id == (createSnapshot db fname rid rd src now).2)
        (importLoop (createSnapshot db fname rid rd src now).1
          (createSnapshot db fname rid rd src now).2 stream 0).1.snapshots = _
      rw [hdecomp, hsnap]
      exact find_updated_snapshot (createSnapshot db fname rid rd src now).2
        Status.failed (newSnapshot db fname rid rd src now) rfl db.snapshots hne

/-- C5: a row whose date cell fails to parse as MM/DD/YYYY is logged and
skipped — the count and the entry table are unchanged, the loop continues
with the remaining rows, and no exception reaches the caller of
`import_file` because of it. -/
theorem import_skips_unparseable_date (db : Db) (sid : Nat) (r : RawRow)
    (c : Nat) (rest : List StreamEvent) (h : parse_date r.date = none) :
    RowDateSkipSpec db sid r c rest := by
  have hpr : processRow db sid r c = ((resolveEntities db r).1, c) := by
    unfold processRow
    rw [h]
  refine ⟨by rw [hpr], ?_, ?_, ?_⟩
  · rw [hpr]
    exact (resolveEntities_preserves db r).2
  · show importLoop (processRow db sid r c).1 sid rest (processRow db sid r c).2 =
      importLoop (processRow db sid r c).1 sid rest c
    rw [hpr]
  · intro hnf
    have hnf' : noFatal (StreamEvent.row r :: rest) := by
      intro ev hev msg
      rcases List.mem_cons.mp hev with rfl | hmem
      · intro hcontra; cases hcontra
      · exact hnf ev hmem msg
    obtain ⟨_, n, hok, _⟩ := importLoop_ok sid (StreamEvent.row r :: rest) hnf' db c
    exact ⟨n, hok⟩

/-- C6: two rows with an identical uniqueness tuple never yield two
`CostEntry` rows — the second insert is rejected by the store's unique
constraint with no change, and an import run preserves key uniqueness of
the entry table, so exactly one row with that tuple remains. -/
theorem cost_entry_key_uniqueness (db : Db) (e : CostEntry) (sid : Nat)
    (r : RawRow) (c : Nat) (fname : String) (rid : Option String)
    (rd : Option Date) (src : Option Nat) (now : Nat)
    (stream : List StreamEvent) :
    EntryUniquenessSpec db e sid r c fname rid rd src now stream := by
  refine ⟨?_, processRow_unique db sid r c, ?_⟩
  · intro ⟨e0, he0, hkey⟩
    unfold insertEntry
    rw [if_pos]
    rw [List.any_eq_true]
    exact ⟨e0, he0, by simp [hkey]⟩
  · intro h
    have hcs : UniqueEntryKeys (createSnapshot db fname rid rd src now).1.entries := h
    exact importLoop_unique (createSnapshot db fname rid rd src now).2 stream
      (createSnapshot db fname rid rd src now).1 0 hcs

/-- C10: skipping a bad-date row is not atomic — entity resolution has
already run when the date check fails, so a skipped row leaves exactly the
reference-data updates of `resolveEntities` behind (and, as the concrete
run shows, can create Customer, Subscription, Resource and Meter rows)
while inserting no cost entry. -/
theorem entity_resolution_precedes_date_check :
    (∀ (db : Db) (sid : Nat) (r : RawRow) (c : Nat), parse_date r.date = none →
        EntityResolutionBeforeDateCheckSpec db sid r c) ∧
      (processRow {} 1 exampleBadDateRow 0).1.customers.length = 1 ∧
      (processRow {} 1 exampleBadDateRow 0).1.subscriptions.length = 1 ∧
      (processRow {} 1 exampleBadDateRow 0).1.resources.length = 1 ∧
      (processRow {} 1 exampleBadDateRow 0).1.meters.length = 1 ∧
      (processRow {} 1 exampleBadDateRow 0).1.entries = [] := by
  refine ⟨?_, by decide, by decide, by decide, by decide, by decide⟩
  intro db sid r c h
  unfold EntityResolutionBeforeDateCheckSpec processRow
  rw [h]

/-- C7 counterexample: on a row whose optional monetary cells are blank or
absent, the inserted entry stores zero — not null — in the nullable
columns `cost_in_billing_currency` and `payg_price`, contradicting the
claim that blank optional fields yield null. -/
theorem blank_optional_money_is_zero_not_null :
    (processRow {} 1 blankMoneyRow 0).1.entries.map
        (fun e => (e.cost_in_billing_currency, e.payg_price)) =
      [(some DecimalValue.int0, some DecimalValue.int0)] ∧
      (some DecimalValue.int0 ≠ (none : Option DecimalValue)) :=
  ⟨by decide, by simp⟩

/-- C7 as amended: an absent or blank monetary cell yields zero for every
monetary column — cost in USD, quantity, unit price, and also the optional
nullable columns cost in billing currency and pay-as-you-go price, which
receive zero rather than null. -/
theorem blank_money_fields_all_zero (sid : Nat) (d : Date) (si ri mi : Nat)
    (r : RawRow) (h1 : blankCell r.costInUsd)
    (h2 : blankCell r.costInBillingCurrency) (h3 : blankCell r.quantity)
    (h4 : blankCell r.unitPrice) (h5 : blankCell r.PayGPrice) :
    BlankMoneyFieldsSpec sid d si ri mi r := by
  unfold BlankMoneyFieldsSpec mkCostEntry
  exact ⟨orZero_blank h1, orZero_blank h3, orZero_blank h4,
    by rw [orZero_blank h2], by rw [orZero_blank h5]⟩

/-- C8 counterexample: a request mixing a valid dimension with an unknown
one is not rejected with a client error — the unknown name is silently
dropped and the aggregate proceeds on the valid field alone. -/
theorem unknown_group_by_not_rejected :
    aggregate_resolve_group_by ["subscriptionName", "bogusDimension"] =
        AggregateOutcome.grouped ["subscription__name"] ∧
      mappingGet "bogusDimension" = none ∧
      ∀ detail, aggregate_resolve_group_by ["subscriptionName", "bogusDimension"] ≠
        AggregateOutcome.clientError detail := by
  refine ⟨by decide, by decide, ?_⟩
  intro detail h
  have hgr : AggregateOutcome.grouped ["subscription__name"] =
      AggregateOutcome.clientError detail := by
    rw [← h]
    decide
  cases hgr

/-- C8 as amended: unknown group-by names are never passed through as raw
field accesses — they are dropped from the grouping, whose fields all come
from the allow-list — and the request is rejected with a client error
exactly when no requested name maps to a valid internal field (including
an empty `group_by`). -/
theorem aggregate_group_by_allow_list (gb : List String) :
    AggregateGroupBySpec gb := by
  unfold AggregateGroupBySpec aggregate_resolve_group_by
  by_cases hemp : gb.isEmpty = true
  · rw [if_pos hemp]
    rw [List.isEmpty_iff] at hemp
    subst hemp
    rfl
  · rw [if_neg hemp]
    by_cases hf : (gb.filterMap mappingGet).isEmpty = true
    · rw [if_pos hf]
      exact List.isEmpty_iff.mp hf
    · rw [if_neg hf]
      refine ⟨rfl, fun hcontra => hf (by rw [hcontra]; rfl), ?_⟩
      intro f hmem
      rw [List.mem_filterMap] at hmem
      obtain ⟨name, _, hget⟩ := hmem
      unfold mappingGet at hget
      cases hfind : aggregate_group_by_mapping.find? (fun p => p.1 == name) with
      | none => rw [hfind] at hget; cases hget
      | some p =>
        rw [hfind] at hget
        have hp : p.2 = f := Option.some.inj hget
        have hpmem : p ∈ aggregate_group_by_mapping := List.mem_of_find?_eq_some hfind
        rw [← hp]
        exact List.mem_map.mpr ⟨p, hpmem, rfl⟩

/-! ### Witnesses: each claim theorem applied at a concrete input -/

/-- C1 witness at the concrete store: both complete snapshots have
entries on the date, and the later-created snapshot 10 wins even though
snapshot 11 holds more rows. -/
theorem latest_snapshot_for_date_witness :
    LatestSnapshotForDateSpec exampleDb exampleDate ∧
      (get_latest_snapshot_for_date exampleDb exampleDate).map
        (fun s => s.id) = some 10 :=
  ⟨get_latest_snapshot_for_date_correct exampleDb exampleDate, by decide⟩

/-- C2 witness at the concrete store: with a date, the higher-id snapshot
11 is chosen for source 1 even though snapshot 10 has the more recent
creation timestamp. -/
theorem latest_snapshots_with_date_witness :
    LatestSnapshotsForDateSpec exampleDb exampleDate ∧
      (get_latest_snapshots exampleDb (some exampleDate)).1.map
        (fun s => s.id) = [11] :=
  ⟨get_latest_snapshots_with_date_correct exampleDb exampleDate, by decide⟩

/-- C3 witness at the concrete store. -/
theorem only_complete_witness :
    OnlyCompleteSpec exampleDb exampleDate (some exampleDate) :=
  resolver_returns_only_complete exampleDb exampleDate (some exampleDate)

/-- C4 witness: the freshness hypothesis holds on the concrete store and
the lifecycle contract follows. -/
theorem import_file_lifecycle_witness :
    (∀ s ∈ exampleDb.snapshots, s.id < exampleDb.nextId) ∧
      ImportFileSpec exampleDb "w.csv" (some "runW") (some exampleDate)
        (some 1) 300 [StreamEvent.row blankMoneyRow] :=
  ⟨by decide,
    import_file_lifecycle exampleDb "w.csv" (some "runW") (some exampleDate)
      (some 1) 300 [StreamEvent.row blankMoneyRow] (by decide)⟩

/-- C5 witness: the ISO-formatted date fails to parse and the skip
contract follows. -/
theorem import_skips_unparseable_date_witness :
    parse_date exampleBadDateRow.date = none ∧
      RowDateSkipSpec exampleDb 10 exampleBadDateRow 0 [] :=
  ⟨by decide,
    import_skips_unparseable_date exampleDb 10 exampleBadDateRow 0 [] (by decide)⟩

/-- C6 witness at the concrete store and a duplicated row. -/
theorem cost_entry_key_uniqueness_witness :
    EntryUniquenessSpec exampleDb exampleEntry10 10 blankMoneyRow 0 "w.csv"
      (some "runW") none none 300
      [StreamEvent.row blankMoneyRow, StreamEvent.row blankMoneyRow] :=
  cost_entry_key_uniqueness exampleDb exampleEntry10 10 blankMoneyRow 0 "w.csv"
    (some "runW") none none 300
    [StreamEvent.row blankMoneyRow, StreamEvent.row blankMoneyRow]

/-- C9 witness: source 2 of the concrete store has no snapshot, and the
concrete missing lists carry exactly the specified reason strings. -/
theorem missing_source_witness :
    MissingSourceSpec exampleDb exampleDate
        { id := 2, name := "dev", is_active := true } ∧
      (get_latest_snapshots exampleDb (some exampleDate)).2 =
        [("dev", "no entries for date")] ∧
      (get_latest_snapshots exampleDb none).2 = [("dev", "no snapshot")] :=
  ⟨get_latest_snapshots_missing_correct exampleDb exampleDate
      { id := 2, name := "dev", is_active := true },
    by decide, by decide⟩

/-- C10 witness: the bad-date row is skipped with the entity-resolution
state left behind. -/
theorem entity_resolution_witness :
    parse_date exampleBadDateRow.date = none ∧
      EntityResolutionBeforeDateCheckSpec {} 1 exampleBadDateRow 0 :=
  ⟨by decide,
    entity_resolution_precedes_date_check.1 {} 1 exampleBadDateRow 0 (by decide)⟩

/-- C7 witness: every monetary cell of the concrete row is blank or
absent, and they all land as zero. -/
theorem blank_money_fields_witness :
    blankCell blankMoneyRow.costInUsd ∧
      blankCell blankMoneyRow.costInBillingCurrency ∧
      blankCell blankMoneyRow.quantity ∧
      blankCell blankMoneyRow.unitPrice ∧
      blankCell blankMoneyRow.PayGPrice ∧
      BlankMoneyFieldsSpec 1 exampleDate 2 3 4 blankMoneyRow :=
  ⟨Or.inr rfl, Or.inl rfl, Or.inr rfl, Or.inl rfl, Or.inr rfl,
    blank_money_fields_all_zero 1 exampleDate 2 3 4 blankMoneyRow
      (Or.inr rfl) (Or.inl rfl) (Or.inr rfl) (Or.inl rfl) (Or.inr rfl)⟩

/-- C8 witness: the mixed valid/unknown request satisfies the amended
contract. -/
theorem aggregate_group_by_witness :
    AggregateGroupBySpec ["subscriptionName", "bogusDimension"] :=
  aggregate_group_by_allow_list ["subscriptionName", "bogusDimension"]

end CieloAzureBilling
